import Mathlib

/-!
Shallow embedding of `modules/bump_allocator/src/lib.rs`: the double-ended
bootstrap allocator `EarlyAllocator<SIZE>`.  Machine integers (`usize`) are
modelled as `Nat` together with wrapping arithmetic modulo `W = 2 ^ 64`
(`wadd`, `wsub`, `wmul`); the bitwise operations of the source (`&`, `!`) are
`Nat.land` and 64-bit complement `unot`.  Fallible operations return an
`AllocResult` paired with the post state.
-/

namespace BumpAllocator

/-- Number of values of `usize` (the target is 64-bit). -/
def W : Nat := 2 ^ 64

/-- Wrapping `usize` addition. -/
def wadd (a b : Nat) : Nat := (a + b) % W

/-- Wrapping `usize` subtraction (two's complement). -/
def wsub (a b : Nat) : Nat := (a + (W - b % W)) % W

/-- Wrapping `usize` multiplication. -/
def wmul (a b : Nat) : Nat := (a * b) % W

/-- Bitwise complement on 64 bits: `!a` in Rust. -/
def unot (a : Nat) : Nat := (W - 1) - a % W

/-- `AllocError` from the `allocator` crate (the two variants this file uses). -/
inductive AllocError where
  | NoMemory
  | InvalidParam
deriving DecidableEq, Repr

/-- `AllocResult<T> = Result<T, AllocError>`. -/
inductive AllocResult (α : Type) where
  | ok (v : α)
  | err (e : AllocError)
deriving DecidableEq, Repr

/-- The six fields of `EarlyAllocator<SIZE>` (the const generic `SIZE` is
passed explicitly to the page-side operations). -/
structure EarlyAllocator where
  start : Nat
  «end» : Nat
  b_pos : Nat
  p_pos : Nat
  count : Nat
  bytes_start : Nat
deriving DecidableEq, Repr

namespace EarlyAllocator

/-- `EarlyAllocator::new`. -/
def new : EarlyAllocator :=
  { start := 0, «end» := 0, b_pos := 0, p_pos := 0, count := 0, bytes_start := 0 }

/-- `BaseAllocator::init`: every field is overwritten, so the prior state is
irrelevant and the operation is modelled as a constructor.
`end = start + size` is the wrapping `usize` addition of the source. -/
def init (start size : Nat) : EarlyAllocator :=
  { start := start, «end» := wadd start size, b_pos := start,
    p_pos := wadd start size, count := 0, bytes_start := start }

/-- `BaseAllocator::add_memory`: always `Err(NoMemory)`, state untouched. -/
def add_memory (st : EarlyAllocator) (_start _size : Nat) :
    AllocResult Unit × EarlyAllocator :=
  (.err .NoMemory, st)

/-- `ByteAllocator::alloc`.  `layout` contributes `size` and `align`.
Mirrors the source line by line:
`aligned_pos = (b_pos + align - 1) & !(align - 1)`,
`new_pos = aligned_pos + size`, the collision check against `p_pos`, the
commit of `b_pos`/`count`, and finally `NonNull::new(aligned_pos as *mut u8)`
which yields `Err(InvalidParam)` exactly when `aligned_pos == 0` — note that
the commit happens before that null check. -/
def alloc (st : EarlyAllocator) (size align : Nat) :
    AllocResult Nat × EarlyAllocator :=
  let aligned_pos := wsub (wadd st.b_pos align) 1 &&& unot (wsub align 1)
  let new_pos := wadd aligned_pos size
  if new_pos > st.p_pos then
    (.err .NoMemory, st)
  else
    let st' := { st with b_pos := new_pos, count := wadd st.count 1 }
    if aligned_pos = 0 then (.err .InvalidParam, st') else (.ok aligned_pos, st')

/-- `ByteAllocator::dealloc`: the position and layout arguments are ignored by
the source, which only manipulates `count` and possibly resets `b_pos`. -/
def dealloc (st : EarlyAllocator) (_pos _size _align : Nat) : EarlyAllocator :=
  if st.count > 0 then
    let c := st.count - 1
    if c = 0 then { st with count := c, b_pos := st.bytes_start }
    else { st with count := c }
  else st

/-- `ByteAllocator::total_bytes`. -/
def total_bytes (st : EarlyAllocator) : Nat :=
  if st.«end» > st.start then st.«end» - st.start else 0

/-- `ByteAllocator::used_bytes`.  The subtraction `end - p_pos` is unchecked
in the source, hence `wsub`; `b_pos - bytes_start` is guarded by the branch. -/
def used_bytes (st : EarlyAllocator) : Nat :=
  if st.b_pos > st.bytes_start then
    wadd (st.b_pos - st.bytes_start) (wsub st.«end» st.p_pos)
  else wsub st.«end» st.p_pos

/-- `ByteAllocator::available_bytes`. -/
def available_bytes (st : EarlyAllocator) : Nat :=
  if st.p_pos > st.b_pos then st.p_pos - st.b_pos else 0

/-- `PageAllocator::alloc_pages` with `PAGE_SIZE = SIZE`.
`total_size = num_pages * SIZE` and `aligned_pos = (p_pos - total_size) &
!(align_pow2 - 1)` are the wrapping computations of the source; the
collision check against `b_pos` only runs afterwards. -/
def alloc_pages (st : EarlyAllocator) (SIZE num_pages align_pow2 : Nat) :
    AllocResult Nat × EarlyAllocator :=
  let total_size := wmul num_pages SIZE
  let aligned_pos := wsub st.p_pos total_size &&& unot (wsub align_pow2 1)
  if aligned_pos < st.b_pos then
    (.err .NoMemory, st)
  else
    (.ok aligned_pos, { st with p_pos := aligned_pos })

/-- `PageAllocator::dealloc_pages`: a no-op. -/
def dealloc_pages (st : EarlyAllocator) (_pos _num_pages : Nat) : EarlyAllocator :=
  st

/-- `PageAllocator::total_pages` (usize division by the page size). -/
def total_pages (st : EarlyAllocator) (SIZE : Nat) : Nat :=
  if st.«end» > st.start then (st.«end» - st.start) / SIZE else 0

/-- `PageAllocator::used_pages`. -/
def used_pages (st : EarlyAllocator) (SIZE : Nat) : Nat :=
  if st.«end» > st.p_pos then (st.«end» - st.p_pos) / SIZE else 0

/-- `PageAllocator::available_pages`. -/
def available_pages (st : EarlyAllocator) (SIZE : Nat) : Nat :=
  if st.p_pos > st.b_pos then (st.p_pos - st.b_pos) / SIZE else 0

end EarlyAllocator

/-! ### Mathematical descriptions of the bit tricks -/

/-- Round `x` down to a multiple of `a`. -/
def alignDownM (x a : Nat) : Nat := x - x % a

/-- Round `x` up to a multiple of `a` (as the source computes it, via the
predecessor of the next block). -/
def alignUpM (x a : Nat) : Nat := alignDownM (x + a - 1) a

theorem W_pos : 0 < W := Nat.two_pow_pos 64

theorem one_lt_W : 1 < W := by norm_num [W]

theorem wadd_eq {a b : Nat} (h : a + b < W) : wadd a b = a + b :=
  Nat.mod_eq_of_lt h

theorem wsub_eq {a b : Nat} (hb : b ≤ a) (ha : a < W) : wsub a b = a - b := by
  have hbW : b < W := lt_of_le_of_lt hb ha
  have h1 : b % W = b := Nat.mod_eq_of_lt hbW
  have h2 : a + (W - b) = W + (a - b) := by omega
  have h3 : a - b < W := lt_of_le_of_lt (Nat.sub_le a b) ha
  simp [wsub, h1, h2, Nat.add_mod_left, Nat.mod_eq_of_lt h3]

theorem wmul_eq {a b : Nat} (h : a * b < W) : wmul a b = a * b :=
  Nat.mod_eq_of_lt h

theorem unot_eq {a : Nat} (h : a < W) : unot a = (W - 1) - a := by
  simp [unot, Nat.mod_eq_of_lt h]

/-- Bit-level characterisation of the source's masking trick: for a 64-bit
value `x` and a power-of-two alignment `2 ^ k`, `x & !(2 ^ k - 1)` rounds `x`
down to a multiple of `2 ^ k`. -/
theorem land_mask_eq (x k : Nat) (hk : k ≤ 64) (hx : x < W) :
    x &&& (W - 2 ^ k) = alignDownM x (2 ^ k) := by
  have hxW : x < 2 ^ 64 := by simpa [W] using hx
  have hmask : W - 2 ^ k = (2 ^ (64 - k) - 1) <<< k := by
    rw [Nat.shiftLeft_eq, Nat.sub_mul, one_mul, ← pow_add]
    have : 64 - k + k = 64 := by omega
    rw [this]; rfl
  have hdown : alignDownM x (2 ^ k) = (x >>> k) <<< k := by
    rw [Nat.shiftRight_eq_div_pow, Nat.shiftLeft_eq]
    have := Nat.div_add_mod x (2 ^ k)
    simp only [alignDownM]
    rw [Nat.mul_comm (x / 2 ^ k) (2 ^ k)]
    omega
  rw [hmask, hdown]
  apply Nat.eq_of_testBit_eq
  intro i
  rw [Nat.testBit_land, Nat.testBit_shiftLeft, Nat.testBit_shiftLeft,
    Nat.testBit_two_pow_sub_one, Nat.testBit_shiftRight]
  by_cases hki : k ≤ i
  · have hik : k + (i - k) = i := by omega
    by_cases hi64 : i < 64
    · have : i - k < 64 - k := by omega
      simp [hki, hik, this, ge_iff_le]
    · have hxi : x.testBit i = false := by
        apply Nat.testBit_lt_two_pow
        calc x < 2 ^ 64 := hxW
        _ ≤ 2 ^ i := Nat.pow_le_pow_right (by omega) (by omega)
      simp [hik, hxi]
  · simp [ge_iff_le, hki]

theorem alignDownM_le (x a : Nat) : alignDownM x a ≤ x := Nat.sub_le x (x % a)

theorem le_alignUpM (x a : Nat) (h : 0 < a) : x ≤ alignUpM x a := by
  have := Nat.mod_lt (x + a - 1) h
  simp only [alignUpM, alignDownM]
  omega

theorem alignUpM_le (x a : Nat) : alignUpM x a ≤ x + a - 1 := by
  simp only [alignUpM]
  exact alignDownM_le _ _

/-- `2 ^ k < W` for any `usize`-representable power of two. -/
theorem two_pow_lt_W {k : Nat} (hk : k ≤ 63) : 2 ^ k < W := by
  have : (2:Nat) ^ k ≤ 2 ^ 63 := Nat.pow_le_pow_right (by omega) hk
  have h64 : (2:Nat) ^ 63 < 2 ^ 64 := by norm_num
  exact lt_of_le_of_lt this h64

/-- The source's predecessor computation `b + a - 1` done with wrapping ops,
for `0 < a` and `b + a ≤ W`, is the exact `b + a - 1`. -/
theorem wsub_wadd_one (b a : Nat) (ha : 0 < a) (h : b + a ≤ W) :
    wsub (wadd b a) 1 = b + a - 1 := by
  rcases Nat.lt_or_ge (b + a) W with hlt | hge
  · rw [wadd_eq hlt]
    exact wsub_eq (by omega) hlt
  · have heq : b + a = W := by omega
    have h1W : 1 % W = 1 := Nat.mod_eq_of_lt one_lt_W
    have hW1 : W - 1 < W := by have := W_pos; omega
    simp [wadd, wsub, heq, Nat.mod_self, h1W, Nat.mod_eq_of_lt hW1]

/-- The source's mask `!(align - 1)` for `align = 2 ^ k`. -/
theorem unot_pred_pow (k : Nat) (hk : k ≤ 63) :
    unot (wsub (2 ^ k) 1) = W - 2 ^ k := by
  have hp : 0 < (2:Nat) ^ k := Nat.two_pow_pos k
  have hW : 2 ^ k < W := two_pow_lt_W hk
  rw [wsub_eq (by omega) hW, unot_eq (by omega)]
  omega

/-- Characterisation of `ByteAllocator::alloc` when the alignment is a
power of two and `b_pos + align` does not exceed `2 ^ 64`: the computed
`aligned_pos` is `b_pos` rounded up to a multiple of `align`. -/
theorem alloc_eq (st : EarlyAllocator) (size align k : Nat) (hk : k ≤ 63)
    (ha : align = 2 ^ k) (h1 : st.b_pos + align ≤ W) :
    st.alloc size align =
      (if wadd (alignUpM st.b_pos align) size > st.p_pos then
        (.err .NoMemory, st)
       else if alignUpM st.b_pos align = 0 then
        (.err .InvalidParam,
         { st with b_pos := wadd (alignUpM st.b_pos align) size,
                   count := wadd st.count 1 })
       else
        (.ok (alignUpM st.b_pos align),
         { st with b_pos := wadd (alignUpM st.b_pos align) size,
                   count := wadd st.count 1 })) := by
  have hpos : 0 < align := by rw [ha]; exact Nat.two_pow_pos k
  have key : wsub (wadd st.b_pos align) 1 &&& unot (wsub align 1) =
      alignUpM st.b_pos align := by
    rw [wsub_wadd_one st.b_pos align hpos h1, ha, unot_pred_pow k hk]
    exact land_mask_eq (st.b_pos + 2 ^ k - 1) k (by omega) (by omega)
  simp only [EarlyAllocator.alloc, key]

/-- Characterisation of `PageAllocator::alloc_pages` when the alignment is a
power of two and `num_pages * SIZE` does not underflow `p_pos`: the computed
`aligned_pos` is `p_pos - num_pages * SIZE` rounded down to a multiple of
`align_pow2`. -/
theorem alloc_pages_eq (st : EarlyAllocator) (SIZE n a k : Nat) (hk : k ≤ 63)
    (ha : a = 2 ^ k) (hp : st.p_pos < W) (hle : n * SIZE ≤ st.p_pos) :
    st.alloc_pages SIZE n a =
      (if alignDownM (st.p_pos - n * SIZE) a < st.b_pos then
        (.err .NoMemory, st)
       else
        (.ok (alignDownM (st.p_pos - n * SIZE) a),
         { st with p_pos := alignDownM (st.p_pos - n * SIZE) a })) := by
  have key : wsub st.p_pos (wmul n SIZE) &&& unot (wsub a 1) =
      alignDownM (st.p_pos - n * SIZE) a := by
    rw [wmul_eq (lt_of_le_of_lt hle hp), wsub_eq hle hp, ha, unot_pred_pow k hk]
    exact land_mask_eq (st.p_pos - n * SIZE) k (by omega)
      (lt_of_le_of_lt (Nat.sub_le _ _) hp)
  simp only [EarlyAllocator.alloc_pages, key]

/-! ### Frame lemmas: which fields each operation can touch -/

theorem alloc_frame (st : EarlyAllocator) (sz al : Nat) :
    (st.alloc sz al).2.start = st.start ∧ (st.alloc sz al).2.«end» = st.«end» ∧
    (st.alloc sz al).2.p_pos = st.p_pos ∧
    (st.alloc sz al).2.bytes_start = st.bytes_start := by
  simp only [EarlyAllocator.alloc]
  split
  · exact ⟨rfl, rfl, rfl, rfl⟩
  · split <;> exact ⟨rfl, rfl, rfl, rfl⟩

theorem dealloc_frame (st : EarlyAllocator) (p sz al : Nat) :
    (st.dealloc p sz al).start = st.start ∧ (st.dealloc p sz al).«end» = st.«end» ∧
    (st.dealloc p sz al).p_pos = st.p_pos ∧
    (st.dealloc p sz al).bytes_start = st.bytes_start := by
  simp only [EarlyAllocator.dealloc]
  split
  · split <;> exact ⟨rfl, rfl, rfl, rfl⟩
  · exact ⟨rfl, rfl, rfl, rfl⟩

theorem alloc_pages_frame (st : EarlyAllocator) (SIZE n a : Nat) :
    (st.alloc_pages SIZE n a).2.start = st.start ∧
    (st.alloc_pages SIZE n a).2.«end» = st.«end» ∧
    (st.alloc_pages SIZE n a).2.b_pos = st.b_pos ∧
    (st.alloc_pages SIZE n a).2.count = st.count ∧
    (st.alloc_pages SIZE n a).2.bytes_start = st.bytes_start := by
  simp only [EarlyAllocator.alloc_pages]
  split <;> exact ⟨rfl, rfl, rfl, rfl, rfl⟩

/-! ### Operation sequences -/

/-- One call to a mutating entry point of the allocator (the accounting
queries take `&self` in the source and cannot change the state). -/
inductive Op where
  | init (start size : Nat)
  | alloc (size align : Nat)
  | dealloc (pos size align : Nat)
  | alloc_pages (num_pages align_pow2 : Nat)
  | dealloc_pages (pos num_pages : Nat)
  | add_memory (start size : Nat)

/-- Effect of one call on the allocator state (results are discarded). -/
def step (SIZE : Nat) (st : EarlyAllocator) : Op → EarlyAllocator
  | .init s sz => EarlyAllocator.init s sz
  | .alloc sz al => (st.alloc sz al).2
  | .dealloc p sz al => st.dealloc p sz al
  | .alloc_pages n a => (st.alloc_pages SIZE n a).2
  | .dealloc_pages p n => st.dealloc_pages p n
  | .add_memory s sz => (st.add_memory s sz).2

/-- The ordering claimed by the spec:
`start <= bytes_start <= b_pos <= p_pos <= end`. -/
def Ordered (st : EarlyAllocator) : Prop :=
  st.start ≤ st.bytes_start ∧ st.bytes_start ≤ st.b_pos ∧
  st.b_pos ≤ st.p_pos ∧ st.p_pos ≤ st.«end»

instance (st : EarlyAllocator) : Decidable (Ordered st) :=
  inferInstanceAs (Decidable (_ ∧ _ ∧ _ ∧ _))

/-- The ordering together with well-formedness of the `usize` fields. -/
def Inv (st : EarlyAllocator) : Prop := Ordered st ∧ st.«end» < W

/-- Preconditions under which one call keeps the invariant: the source's
stated preconditions (alignments are powers of two, `start <= end` at
`init`) plus the absence of `usize` overflow in the call's arithmetic. -/
def OpOk (SIZE : Nat) (st : EarlyAllocator) : Op → Prop
  | .init s sz => s + sz < W
  | .alloc sz al =>
      (∃ k, k ≤ 63 ∧ al = 2 ^ k) ∧ st.b_pos + al ≤ W ∧
      alignUpM st.b_pos al + sz < W
  | .dealloc _ _ _ => True
  | .alloc_pages n a => (∃ k, k ≤ 63 ∧ a = 2 ^ k) ∧ n * SIZE ≤ st.p_pos
  | .dealloc_pages _ _ => True
  | .add_memory _ _ => True

/-- Run a list of calls left to right. -/
def runOps (SIZE : Nat) (st : EarlyAllocator) : List Op → EarlyAllocator
  | [] => st
  | op :: ops => runOps SIZE (step SIZE st op) ops

/-- `OpOk` holds at every intermediate state of the list. -/
def OpsOk (SIZE : Nat) (st : EarlyAllocator) : List Op → Prop
  | [] => True
  | op :: ops => OpOk SIZE st op ∧ OpsOk SIZE (step SIZE st op) ops

theorem init_Inv (s sz : Nat) (h : s + sz < W) : Inv (EarlyAllocator.init s sz) := by
  simp only [Inv, Ordered, EarlyAllocator.init, wadd_eq h]
  omega

theorem step_preserves_Inv (SIZE : Nat) (st : EarlyAllocator) (op : Op)
    (hInv : Inv st) (hok : OpOk SIZE st op) : Inv (step SIZE st op) := by
  obtain ⟨⟨h1, h2, h3, h4⟩, h5⟩ := hInv
  cases op with
  | init s sz => exact init_Inv s sz hok
  | alloc sz al =>
      obtain ⟨⟨k, hk, ha⟩, hb, hs⟩ := hok
      show Inv (st.alloc sz al).2
      rw [alloc_eq st sz al k hk ha hb, wadd_eq hs]
      have hpos : 0 < al := by rw [ha]; exact Nat.two_pow_pos k
      have hup : st.b_pos ≤ alignUpM st.b_pos al := le_alignUpM _ _ hpos
      split
      · exact ⟨⟨h1, h2, h3, h4⟩, h5⟩
      · rename_i hgt
        have hle : alignUpM st.b_pos al + sz ≤ st.p_pos := le_of_not_lt hgt
        split <;> refine ⟨⟨h1, ?_, ?_, h4⟩, h5⟩ <;> dsimp only <;> omega
  | dealloc p sz al =>
      show Inv (st.dealloc p sz al)
      simp only [EarlyAllocator.dealloc]
      split
      · split
        · exact ⟨⟨h1, le_refl _, le_trans h2 h3, h4⟩, h5⟩
        · exact ⟨⟨h1, h2, h3, h4⟩, h5⟩
      · exact ⟨⟨h1, h2, h3, h4⟩, h5⟩
  | alloc_pages n a =>
      obtain ⟨⟨k, hk, ha⟩, hle⟩ := hok
      show Inv (st.alloc_pages SIZE n a).2
      rw [alloc_pages_eq st SIZE n a k hk ha (lt_of_le_of_lt h4 h5) hle]
      have hd : alignDownM (st.p_pos - n * SIZE) a ≤ st.p_pos :=
        le_trans (alignDownM_le _ _) (Nat.sub_le _ _)
      split
      · exact ⟨⟨h1, h2, h3, h4⟩, h5⟩
      · rename_i hnlt
        have := le_of_not_lt hnlt
        refine ⟨⟨h1, h2, ?_, le_trans hd h4⟩, h5⟩
        dsimp only
        omega
  | dealloc_pages p n => exact ⟨⟨h1, h2, h3, h4⟩, h5⟩
  | add_memory s sz => exact ⟨⟨h1, h2, h3, h4⟩, h5⟩

theorem runOps_preserves_Inv (SIZE : Nat) :
    ∀ (l : List Op) (st : EarlyAllocator), Inv st → OpsOk SIZE st l →
      Inv (runOps SIZE st l)
  | [], _, h, _ => h
  | op :: l, st, h, hok =>
      runOps_preserves_Inv SIZE l (step SIZE st op)
        (step_preserves_Inv SIZE st op h hok.1) hok.2

theorem OpsOk_append_left (SIZE : Nat) :
    ∀ (l₁ l₂ : List Op) (st : EarlyAllocator),
      OpsOk SIZE st (l₁ ++ l₂) → OpsOk SIZE st l₁
  | [], _, _, _ => trivial
  | op :: l₁, l₂, st, h =>
      ⟨h.1, OpsOk_append_left SIZE l₁ l₂ (step SIZE st op) h.2⟩

/-! ### Byte-allocation bursts followed by deallocations (for the
bulk-reclaim policy of `dealloc`) -/

/-- Perform the byte allocations `(size, align)` of `l` in order. -/
def allocSeq (st : EarlyAllocator) : List (Nat × Nat) → EarlyAllocator
  | [] => st
  | (sz, al) :: rest => allocSeq (st.alloc sz al).2 rest

/-- All the allocations of `l` return `Ok` when performed in order. -/
def allocsSucceed (st : EarlyAllocator) : List (Nat × Nat) → Bool
  | [] => true
  | (sz, al) :: rest =>
    match (st.alloc sz al).1 with
    | .ok _ => allocsSucceed (st.alloc sz al).2 rest
    | .err _ => false

/-- Perform `n` calls to `dealloc` (the ignored arguments set to 0). -/
def deallocN (st : EarlyAllocator) : Nat → EarlyAllocator
  | 0 => st
  | n + 1 => deallocN (st.dealloc 0 0 0) n

theorem dealloc_count_pos (st : EarlyAllocator) (p sz al : Nat) (h : 0 < st.count) :
    (st.dealloc p sz al).count = st.count - 1 := by
  simp only [EarlyAllocator.dealloc]
  rw [if_pos h]
  split <;> rfl

theorem dealloc_b_pos_of_one_lt (st : EarlyAllocator) (p sz al : Nat)
    (h : 1 < st.count) : (st.dealloc p sz al).b_pos = st.b_pos := by
  simp only [EarlyAllocator.dealloc]
  rw [if_pos (by omega), if_neg (by omega : ¬ st.count - 1 = 0)]

theorem dealloc_b_pos_of_eq_one (st : EarlyAllocator) (p sz al : Nat)
    (h : st.count = 1) : (st.dealloc p sz al).b_pos = st.bytes_start := by
  simp only [EarlyAllocator.dealloc]
  rw [if_pos (by omega), if_pos (by omega : st.count - 1 = 0)]

theorem dealloc_of_count_zero (st : EarlyAllocator) (p sz al : Nat)
    (h : st.count = 0) : st.dealloc p sz al = st := by
  simp only [EarlyAllocator.dealloc]
  rw [if_neg (by omega)]

/-- A successful (`Ok`) allocation increments `count` (wrapping). -/
theorem alloc_ok_count (st : EarlyAllocator) (sz al v : Nat)
    (h : (st.alloc sz al).1 = .ok v) :
    (st.alloc sz al).2.count = wadd st.count 1 := by
  simp only [EarlyAllocator.alloc] at h ⊢
  split at h
  next hc => exact absurd h (by simp)
  next hc =>
    split at h
    next hc2 => exact absurd h (by simp)
    next hc2 => rw [if_neg hc, if_neg hc2]

theorem allocSeq_frame : ∀ (l : List (Nat × Nat)) (st : EarlyAllocator),
    (allocSeq st l).p_pos = st.p_pos ∧
    (allocSeq st l).bytes_start = st.bytes_start
  | [], _ => ⟨rfl, rfl⟩
  | (sz, al) :: rest, st =>
      ⟨(allocSeq_frame rest (st.alloc sz al).2).1.trans (alloc_frame st sz al).2.2.1,
       (allocSeq_frame rest (st.alloc sz al).2).2.trans (alloc_frame st sz al).2.2.2⟩

theorem allocSeq_count (l : List (Nat × Nat)) :
    ∀ st : EarlyAllocator, allocsSucceed st l = true →
      st.count + l.length < W → (allocSeq st l).count = st.count + l.length := by
  induction l with
  | nil => intro st _ _; simp [allocSeq]
  | cons hd rest ih =>
      obtain ⟨sz, al⟩ := hd
      intro st hs hlen
      simp only [List.length_cons] at hlen
      have hok : ∃ v, (st.alloc sz al).1 = .ok v := by
        unfold allocsSucceed at hs
        cases hres : (st.alloc sz al).1 with
        | ok v => exact ⟨v, rfl⟩
        | err e => rw [hres] at hs; simp at hs
      obtain ⟨v, hv⟩ := hok
      have hrest : allocsSucceed (st.alloc sz al).2 rest = true := by
        unfold allocsSucceed at hs
        rw [hv] at hs
        exact hs
      have hc1 : (st.alloc sz al).2.count = st.count + 1 := by
        rw [alloc_ok_count st sz al v hv]
        exact wadd_eq (by omega)
      have hrec := ih (st.alloc sz al).2 hrest (by rw [hc1]; omega)
      calc (allocSeq st ((sz, al) :: rest)).count
          = (allocSeq (st.alloc sz al).2 rest).count := rfl
        _ = (st.alloc sz al).2.count + rest.length := hrec
        _ = st.count + ((sz, al) :: rest).length := by
              rw [hc1, List.length_cons]; omega

theorem deallocN_frame : ∀ (n : Nat) (st : EarlyAllocator),
    (deallocN st n).p_pos = st.p_pos ∧
    (deallocN st n).bytes_start = st.bytes_start
  | 0, _ => ⟨rfl, rfl⟩
  | n + 1, st =>
      ⟨(deallocN_frame n (st.dealloc 0 0 0)).1.trans (dealloc_frame st 0 0 0).2.2.1,
       (deallocN_frame n (st.dealloc 0 0 0)).2.trans (dealloc_frame st 0 0 0).2.2.2⟩

/-- Fewer deallocations than live allocations: `b_pos` untouched and the
counter goes down one per call. -/
theorem deallocN_keep (j : Nat) : ∀ st : EarlyAllocator, j < st.count →
    (deallocN st j).b_pos = st.b_pos ∧ (deallocN st j).count = st.count - j := by
  induction j with
  | zero => intro st _; exact ⟨rfl, rfl⟩
  | succ m ih =>
      intro st h
      have hcnt : (st.dealloc 0 0 0).count = st.count - 1 :=
        dealloc_count_pos st 0 0 0 (by omega)
      have hrec := ih (st.dealloc 0 0 0) (by omega)
      refine ⟨?_, ?_⟩
      · exact hrec.1.trans (dealloc_b_pos_of_one_lt st 0 0 0 (by omega))
      · show (deallocN (st.dealloc 0 0 0) m).count = st.count - (m + 1)
        rw [hrec.2, hcnt]
        omega

/-- Exactly as many deallocations as live allocations: the byte arena is
reclaimed, `b_pos` returns to `bytes_start`. -/
theorem deallocN_reset (n : Nat) : ∀ st : EarlyAllocator,
    st.count = n → 0 < n → (deallocN st n).b_pos = st.bytes_start := by
  induction n with
  | zero => intro st _ h; omega
  | succ m ih =>
      intro st hc _
      by_cases hm : m = 0
      · subst hm
        show (st.dealloc 0 0 0).b_pos = st.bytes_start
        exact dealloc_b_pos_of_eq_one st 0 0 0 hc
      · have hc' : (st.dealloc 0 0 0).count = m := by
          rw [dealloc_count_pos st 0 0 0 (by omega)]
          omega
        show (deallocN (st.dealloc 0 0 0) m).b_pos = st.bytes_start
        rw [ih (st.dealloc 0 0 0) hc' (by omega), (dealloc_frame st 0 0 0).2.2.2]

/-! ### The claims -/

/-- Claim C1, counterexample.  The claim asserts that after `init(start, size)`
with `start <= end`, every operation sequence whose alignments are powers of
two keeps `start <= bytes_start <= b_pos <= p_pos <= end`.  It is false on the
code: (i) `alloc_pages(3, 1)` on `init(0x1000, 0x1000)` with `SIZE = 0x1000`
underflows `p_pos - total_size` and commits `p_pos = 2^64 - 0x1000 > end`;
(ii) `alloc(2^64 - 1, 1)` on `init(1, 2^64 - 2)` overflows
`aligned_pos + size`, passes the collision check with the wrapped `new_pos`,
and commits `b_pos = 0 < bytes_start`. -/
theorem C1_counterexample :
    Ordered (EarlyAllocator.init 0x1000 0x1000)
    ∧ ¬ Ordered ((EarlyAllocator.init 0x1000 0x1000).alloc_pages 0x1000 3 1).2
    ∧ Ordered (EarlyAllocator.init 1 (W - 2))
    ∧ ¬ Ordered ((EarlyAllocator.init 1 (W - 2)).alloc (W - 1) 1).2 := by
  decide

/-- Claim C1, amended: after `init(start, size)` with `start + size < 2^64`,
the ordering `start <= bytes_start <= b_pos <= p_pos <= end` holds immediately
after each call of any operation sequence satisfying the claim's
preconditions (alignments powers of two, `start <= end` at init) *provided
additionally no call's `usize` arithmetic wraps*: each byte request satisfies
`b_pos + align <= 2^64` and `aligned_pos + size < 2^64`, and each page request
satisfies `num_pages * SIZE <= p_pos` (the conditions recorded by `OpsOk`).
Stated for every prefix `l₁` of the sequence `l₁ ++ l₂`. -/
theorem C1_invariant_ordering (SIZE s sz : Nat) (l₁ l₂ : List Op)
    (h : s + sz < W)
    (hok : OpsOk SIZE (EarlyAllocator.init s sz) (l₁ ++ l₂)) :
    Ordered (runOps SIZE (EarlyAllocator.init s sz) l₁) :=
  (runOps_preserves_Inv SIZE l₁ (EarlyAllocator.init s sz) (init_Inv s sz h)
    (OpsOk_append_left SIZE l₁ l₂ (EarlyAllocator.init s sz) hok)).1

/-- Witness for C1: a concrete in-bounds sequence (one byte allocation, then
one deallocation still to come) keeps the ordering. -/
theorem C1_witness :
    Ordered (runOps 0x1000 (EarlyAllocator.init 0x1000 0x1000)
      [Op.alloc 16 8]) :=
  C1_invariant_ordering 0x1000 0x1000 0x1000 [Op.alloc 16 8]
    [Op.dealloc 0x1000 16 8] (by decide)
    ⟨⟨⟨3, by omega, rfl⟩, by decide, by decide⟩, trivial, trivial⟩

/-- Claim C2, counterexample.  Both failure modes of the claim:
(i) on `init(0, 0x1000)` the request `(size 1, align 1)` has
`new_pos = 1 <= p_pos`, yet the call does not return `aligned_pos` — it
returns `Err(InvalidParam)` because `aligned_pos = 0` (while still committing
the state change); (ii) on `init(1, 2^64 - 2)` an exact-fit request
`(2^64 - 2, 1)` succeeds, but the one-byte-larger request `(2^64 - 1, 1)`
does not fail: `aligned_pos + size` wraps and the call succeeds. -/
theorem C2_counterexample :
    ((EarlyAllocator.init 0 0x1000).alloc 1 1).1 = .err .InvalidParam
    ∧ 1 ≤ (EarlyAllocator.init 0 0x1000).p_pos
    ∧ ((EarlyAllocator.init 1 (W - 2)).alloc (W - 2) 1).1 = .ok 1
    ∧ ((EarlyAllocator.init 1 (W - 2)).alloc (W - 1) 1).1 ≠ .err .NoMemory := by
  decide

/-- Claim C2, amended: for `align = 2 ^ k` (`k <= 63`), when the alignment
arithmetic does not wrap (`b_pos + align <= 2^64`, `aligned_pos + size <
2^64`, `count + 1 < 2^64`), with `aligned_pos` the rounding of `b_pos` up to
a multiple of `align` and `new_pos = aligned_pos + size`: the call fails with
`NoMemory` exactly when `new_pos > p_pos` (and then changes nothing);
otherwise it sets `b_pos = new_pos` and `count + 1`, and returns
`aligned_pos` *provided `aligned_pos ≠ 0`* (for `aligned_pos = 0` it returns
`InvalidParam`, still committing); an aligned end exactly at `p_pos`
succeeds, and one byte more fails when `p_pos + 1 < 2^64`. -/
theorem C2_alloc_correct (st : EarlyAllocator) (size align k : Nat)
    (hk : k ≤ 63) (ha : align = 2 ^ k)
    (h1 : st.b_pos + align ≤ W)
    (h2 : alignUpM st.b_pos align + size < W)
    (h3 : st.count + 1 < W) :
    ((st.alloc size align).1 = .err .NoMemory ↔
      alignUpM st.b_pos align + size > st.p_pos)
    ∧ ((st.alloc size align).1 = .err .NoMemory → (st.alloc size align).2 = st)
    ∧ (alignUpM st.b_pos align + size ≤ st.p_pos →
        (st.alloc size align).2 =
          { st with b_pos := alignUpM st.b_pos align + size,
                    count := st.count + 1 })
    ∧ (alignUpM st.b_pos align + size ≤ st.p_pos →
        alignUpM st.b_pos align ≠ 0 →
        (st.alloc size align).1 = .ok (alignUpM st.b_pos align))
    ∧ (alignUpM st.b_pos align + size ≤ st.p_pos →
        alignUpM st.b_pos align = 0 →
        (st.alloc size align).1 = .err .InvalidParam)
    ∧ (alignUpM st.b_pos align + size = st.p_pos → st.p_pos + 1 < W →
        (st.alloc (size + 1) align).1 = .err .NoMemory) := by
  rw [alloc_eq st size align k hk ha h1, wadd_eq h2]
  have hcnt : wadd st.count 1 = st.count + 1 := wadd_eq h3
  refine ⟨?_, ?_, ?_, ?_, ?_, ?_⟩
  · constructor
    · intro h
      by_contra hle
      rw [if_neg (by omega)] at h
      split at h <;> simp at h
    · intro h
      rw [if_pos h]
  · intro h
    by_cases hgt : alignUpM st.b_pos align + size > st.p_pos
    · rw [if_pos hgt]
    · rw [if_neg hgt] at h
      split at h <;> simp at h
  · intro hle
    rw [if_neg (by omega), hcnt]
    split <;> rfl
  · intro hle hne
    rw [if_neg (by omega), if_neg hne]
  · intro hle h0
    rw [if_neg (by omega), if_pos h0]
  · intro heq hlt
    rw [alloc_eq st (size + 1) align k hk ha h1, wadd_eq (by omega)]
    rw [if_pos (by omega)]

/-- Witness for C2 (spec Scenario B): on `init(0x1000, 0x1000)` the request
`(16, 8)` returns address `0x1000`. -/
theorem C2_witness :
    ((EarlyAllocator.init 0x1000 0x1000).alloc 16 8).1 = .ok 0x1000 := by
  have h := C2_alloc_correct (EarlyAllocator.init 0x1000 0x1000) 16 8 3
    (by omega) rfl (by decide) (by decide) (by decide)
  exact h.2.2.2.1 (by decide) (by decide)

/-- Claim C3, counterexample.  On `init(0x1000, 0x1000)` with
`SIZE = 0x1000`, the request `alloc_pages(3, 1)` has
`num_pages * page_size = 0x3000 > p_pos = 0x2000`, so the claim's
`aligned_pos = (p_pos - total_size)` rounded down is below `b_pos` and the
call should fail with `NoMemory`; instead the subtraction wraps and the call
succeeds, returning `2^64 - 0x1000`. -/
theorem C3_counterexample :
    3 * 0x1000 > (EarlyAllocator.init 0x1000 0x1000).p_pos
    ∧ ((EarlyAllocator.init 0x1000 0x1000).alloc_pages 0x1000 3 1).1 =
        .ok (W - 0x1000)
    ∧ ((EarlyAllocator.init 0x1000 0x1000).alloc_pages 0x1000 3 1).1 ≠
        .err .NoMemory := by
  decide

/-- Claim C3, amended: for `align_pow2 = 2 ^ k` (`k <= 63`) and *provided the
request does not underflow*, i.e. `num_pages * page_size <= p_pos`:
`aligned_pos` is `(p_pos - num_pages * page_size)` rounded down to a multiple
of `align_pow2`; the call fails with `NoMemory` exactly when
`aligned_pos < b_pos` (and then changes nothing), and otherwise commits
`p_pos = aligned_pos` and returns `aligned_pos`. -/
theorem C3_alloc_pages_correct (st : EarlyAllocator) (SIZE n a k : Nat)
    (hk : k ≤ 63) (ha : a = 2 ^ k) (hp : st.p_pos < W)
    (hle : n * SIZE ≤ st.p_pos) :
    ((st.alloc_pages SIZE n a).1 = .err .NoMemory ↔
      alignDownM (st.p_pos - n * SIZE) a < st.b_pos)
    ∧ (alignDownM (st.p_pos - n * SIZE) a < st.b_pos →
        (st.alloc_pages SIZE n a).2 = st)
    ∧ (st.b_pos ≤ alignDownM (st.p_pos - n * SIZE) a →
        st.alloc_pages SIZE n a =
          (.ok (alignDownM (st.p_pos - n * SIZE) a),
           { st with p_pos := alignDownM (st.p_pos - n * SIZE) a })) := by
  rw [alloc_pages_eq st SIZE n a k hk ha hp hle]
  refine ⟨?_, ?_, ?_⟩
  · constructor
    · intro h
      by_contra hge
      rw [if_neg hge] at h
      simp at h
    · intro h
      rw [if_pos h]
  · intro h
    rw [if_pos h]
  · intro h
    rw [if_neg (by omega)]

/-- Witness for C3: on `init(0x1000, 0x1000)` with `SIZE = 0x1000`,
`alloc_pages(1, 0x1000)` returns `0x1000` and moves `p_pos` to `0x1000`. -/
theorem C3_witness :
    (EarlyAllocator.init 0x1000 0x1000).alloc_pages 0x1000 1 0x1000 =
      (.ok 0x1000,
       { start := 0x1000, «end» := 0x2000, b_pos := 0x1000, p_pos := 0x1000,
         count := 0, bytes_start := 0x1000 }) := by
  have h := C3_alloc_pages_correct (EarlyAllocator.init 0x1000 0x1000)
    0x1000 1 0x1000 12 (by omega) rfl (by decide) (by decide)
  exact h.2.2 (by decide)

/-- Claim C4: bulk reclaim.  From a state with `count = 0`,
`b_pos = bytes_start` and `bytes_start <= p_pos` (the shape `init`
establishes), perform the `k = l.length` successful byte allocations of `l`:
(1) after fewer than `k` deallocations `b_pos` is unchanged from its value
before the first deallocation; (2) after exactly `k` deallocations
`b_pos = bytes_start`; (3) then `available_bytes() = p_pos - bytes_start`;
(4) a `dealloc` when `count` is already 0 changes no field; (5) the address
and layout arguments of `dealloc` are irrelevant. -/
theorem C4_bulk_reclaim (st : EarlyAllocator) (l : List (Nat × Nat))
    (hcnt : st.count = 0) (hb : st.b_pos = st.bytes_start)
    (hbp : st.bytes_start ≤ st.p_pos)
    (hs : allocsSucceed st l = true) (hlen : l.length < W) :
    (∀ j, j < l.length →
      (deallocN (allocSeq st l) j).b_pos = (allocSeq st l).b_pos)
    ∧ (deallocN (allocSeq st l) l.length).b_pos = st.bytes_start
    ∧ (deallocN (allocSeq st l) l.length).available_bytes =
        (deallocN (allocSeq st l) l.length).p_pos - st.bytes_start
    ∧ (∀ (s : EarlyAllocator) (p sz al : Nat), s.count = 0 →
        s.dealloc p sz al = s)
    ∧ (∀ (s : EarlyAllocator) (p sz al p2 sz2 al2 : Nat),
        s.dealloc p sz al = s.dealloc p2 sz2 al2) := by
  have hcount : (allocSeq st l).count = l.length := by
    rw [allocSeq_count l st hs (by omega), hcnt]
    omega
  have hfb : (deallocN (allocSeq st l) l.length).b_pos = st.bytes_start := by
    by_cases h0 : l.length = 0
    · cases l with
      | nil => simpa [deallocN, allocSeq] using hb
      | cons hd tl => simp at h0
    · rw [deallocN_reset l.length (allocSeq st l) hcount (by omega),
        (allocSeq_frame l st).2]
  have hfp : (deallocN (allocSeq st l) l.length).p_pos = st.p_pos := by
    rw [(deallocN_frame l.length (allocSeq st l)).1, (allocSeq_frame l st).1]
  refine ⟨?_, hfb, ?_, ?_, ?_⟩
  · intro j hj
    exact (deallocN_keep j (allocSeq st l) (by omega)).1
  · simp only [EarlyAllocator.available_bytes, hfb, hfp]
    split <;> omega
  · exact fun s p sz al h => dealloc_of_count_zero s p sz al h
  · exact fun s p sz al p2 sz2 al2 => rfl

/-- Witness for C4 (spec Scenario C): two allocations of `(16, 8)` on
`init(0x1000, 0x1000)` followed by two deallocations reset `b_pos` to
`0x1000` and leave `available_bytes = 0x1000`. -/
theorem C4_witness :
    (deallocN (allocSeq (EarlyAllocator.init 0x1000 0x1000)
        [(16, 8), (16, 8)]) 2).b_pos = 0x1000
    ∧ (deallocN (allocSeq (EarlyAllocator.init 0x1000 0x1000)
        [(16, 8), (16, 8)]) 2).available_bytes = 0x1000 := by
  have h := C4_bulk_reclaim (EarlyAllocator.init 0x1000 0x1000)
    [(16, 8), (16, 8)] rfl rfl (by decide) (by decide) (by decide)
  exact ⟨h.2.1, h.2.2.1⟩

/-- Claim C5, counterexample.  The claim says every failed operation leaves
every field unchanged.  The `InvalidParam` path of `alloc` (null computed
address) commits `b_pos` and `count` before failing: on `init(0, 0x1000)`
the request `(1, 1)` fails with `InvalidParam` yet mutates the state. -/
theorem C5_counterexample :
    ((EarlyAllocator.init 0 0x1000).alloc 1 1).1 = .err .InvalidParam
    ∧ ((EarlyAllocator.init 0 0x1000).alloc 1 1).2 ≠
        EarlyAllocator.init 0 0x1000 := by
  decide

/-- Claim C5, amended: `NoMemory` failures never mutate the state — an
`alloc` returning `NoMemory`, an `alloc_pages` returning `NoMemory`, and
`add_memory` (which always fails) leave every field unchanged.  (The
`InvalidParam` failure of `alloc` is the exception: it commits `b_pos` and
`count` exactly as a successful call would.) -/
theorem C5_no_mutation_on_NoMemory (st : EarlyAllocator)
    (sz al SIZE n a ms mz : Nat) :
    ((st.alloc sz al).1 = .err .NoMemory → (st.alloc sz al).2 = st)
    ∧ ((st.alloc_pages SIZE n a).1 = .err .NoMemory →
        (st.alloc_pages SIZE n a).2 = st)
    ∧ (st.add_memory ms mz).2 = st := by
  refine ⟨?_, ?_, rfl⟩
  · intro h
    simp only [EarlyAllocator.alloc] at h ⊢
    split at h
    next hc => rw [if_pos hc]
    next hc =>
      split at h
      next hc2 => simp at h
      next hc2 => simp at h
  · intro h
    simp only [EarlyAllocator.alloc_pages] at h ⊢
    split at h
    next hc => rw [if_pos hc]
    next hc => simp at h

/-- Witness for C5: an exhausted byte request on `init(0x1000, 0x10)`
(`new_pos = 0x1020 > p_pos = 0x1010`) leaves the state unchanged. -/
theorem C5_witness :
    ((EarlyAllocator.init 0x1000 0x10).alloc 0x20 1).2 =
      EarlyAllocator.init 0x1000 0x10 :=
  (C5_no_mutation_on_NoMemory (EarlyAllocator.init 0x1000 0x10)
    0x20 1 1 0 1 0 0).1 (by decide)

/-- Claim C6 (code bug): the claim says the arithmetic of `alloc_pages`
never overflows or underflows for any `num_pages`.  On `init(0x1000, 0x1000)`
with `SIZE = 0x1000`, the request `alloc_pages(3, 1)` computes
`p_pos - total_size = 0x2000 - 0x3000`, which underflows `usize` (a panic in
a debug build); under release (wrapping) semantics the call then *succeeds*
and returns `2^64 - 0x1000`, an address beyond `end`. -/
theorem C6_underflow_eval :
    3 * 0x1000 > (EarlyAllocator.init 0x1000 0x1000).p_pos
    ∧ ((EarlyAllocator.init 0x1000 0x1000).alloc_pages 0x1000 3 1).1 =
        .ok (W - 0x1000)
    ∧ (EarlyAllocator.init 0x1000 0x1000).«end» < W - 0x1000 := by
  decide

/-- Claim C7, counterexample.  The claim says `p_pos` never increases on an
`alloc_pages` call; the underflowing request `alloc_pages(3, 1)` on
`init(0x1000, 0x1000)` with `SIZE = 0x1000` raises `p_pos` from `0x2000` to
`2^64 - 0x1000`. -/
theorem C7_counterexample :
    (EarlyAllocator.init 0x1000 0x1000).p_pos <
      ((EarlyAllocator.init 0x1000 0x1000).alloc_pages 0x1000 3 1).2.p_pos := by
  decide

/-- Claim C7, amended: *provided the request does not underflow*
(`num_pages * SIZE <= p_pos`), every `alloc_pages` call — successful or
failed — leaves `p_pos` less than or equal to its previous value; a
`dealloc_pages` call changes nothing at all; and byte-side calls (`alloc`,
`dealloc`) never change `p_pos`, so `p_pos` is non-increasing across any
sequence of such calls. -/
theorem C7_p_pos_monotone (st : EarlyAllocator) (SIZE n a : Nat)
    (hp : st.p_pos < W) (hle : n * SIZE ≤ st.p_pos) :
    ((st.alloc_pages SIZE n a).2.p_pos ≤ st.p_pos)
    ∧ (∀ (s : EarlyAllocator) (p np : Nat), s.dealloc_pages p np = s)
    ∧ (∀ (s : EarlyAllocator) (sz al : Nat), (s.alloc sz al).2.p_pos = s.p_pos)
    ∧ (∀ (s : EarlyAllocator) (p sz al : Nat),
        (s.dealloc p sz al).p_pos = s.p_pos) := by
  refine ⟨?_, fun s p np => rfl, fun s sz al => (alloc_frame s sz al).2.2.1,
    fun s p sz al => (dealloc_frame s p sz al).2.2.1⟩
  simp only [EarlyAllocator.alloc_pages,
    wmul_eq (lt_of_le_of_lt hle hp), wsub_eq hle hp]
  split
  · exact le_refl _
  · exact le_trans Nat.and_le_left (Nat.sub_le _ _)

/-- Witness for C7: a one-page allocation on `init(0x1000, 0x1000)` with
`SIZE = 0x1000` does not raise `p_pos`. -/
theorem C7_witness :
    ((EarlyAllocator.init 0x1000 0x1000).alloc_pages 0x1000 1 0x1000).2.p_pos ≤
      (EarlyAllocator.init 0x1000 0x1000).p_pos :=
  (C7_p_pos_monotone (EarlyAllocator.init 0x1000 0x1000) 0x1000 1 0x1000
    (by decide) (by decide)).1

theorem total_bytes_ext (s t : EarlyAllocator)
    (h1 : s.start = t.start) (h2 : s.«end» = t.«end») :
    s.total_bytes = t.total_bytes := by
  simp only [EarlyAllocator.total_bytes, h1, h2]

theorem total_pages_ext (s t : EarlyAllocator) (SIZE : Nat)
    (h1 : s.start = t.start) (h2 : s.«end» = t.«end») :
    s.total_pages SIZE = t.total_pages SIZE := by
  simp only [EarlyAllocator.total_pages, h1, h2]

/-- Claim C8: `total_bytes` and `total_pages` are invariant under every
`alloc`, `dealloc`, `alloc_pages`, `dealloc_pages` and `add_memory` call —
none of these touches `start` or `end`, the only fields the totals read. -/
theorem C8_totals_invariant (st : EarlyAllocator)
    (SIZE sz al p n a s2 z2 : Nat) :
    ((st.alloc sz al).2.total_bytes = st.total_bytes
      ∧ (st.alloc sz al).2.total_pages SIZE = st.total_pages SIZE)
    ∧ ((st.dealloc p sz al).total_bytes = st.total_bytes
      ∧ (st.dealloc p sz al).total_pages SIZE = st.total_pages SIZE)
    ∧ ((st.alloc_pages SIZE n a).2.total_bytes = st.total_bytes
      ∧ (st.alloc_pages SIZE n a).2.total_pages SIZE = st.total_pages SIZE)
    ∧ ((st.dealloc_pages p n).total_bytes = st.total_bytes
      ∧ (st.dealloc_pages p n).total_pages SIZE = st.total_pages SIZE)
    ∧ ((st.add_memory s2 z2).2.total_bytes = st.total_bytes
      ∧ (st.add_memory s2 z2).2.total_pages SIZE = st.total_pages SIZE) :=
  ⟨⟨total_bytes_ext _ _ (alloc_frame st sz al).1 (alloc_frame st sz al).2.1,
    total_pages_ext _ _ SIZE (alloc_frame st sz al).1 (alloc_frame st sz al).2.1⟩,
   ⟨total_bytes_ext _ _ (dealloc_frame st p sz al).1 (dealloc_frame st p sz al).2.1,
    total_pages_ext _ _ SIZE (dealloc_frame st p sz al).1
      (dealloc_frame st p sz al).2.1⟩,
   ⟨total_bytes_ext _ _ (alloc_pages_frame st SIZE n a).1
      (alloc_pages_frame st SIZE n a).2.1,
    total_pages_ext _ _ SIZE (alloc_pages_frame st SIZE n a).1
      (alloc_pages_frame st SIZE n a).2.1⟩,
   ⟨rfl, rfl⟩,
   ⟨rfl, rfl⟩⟩

/-- Claim C9: in every state of the shape reachable from `init` under the
preconditions (`bytes_start = start <= b_pos <= p_pos <= end`, all fields
`usize`), the accounting identity
`used_bytes() + available_bytes() = total_bytes()` holds. -/
theorem C9_accounting_identity (st : EarlyAllocator)
    (h0 : st.bytes_start = st.start)
    (h1 : st.start ≤ st.b_pos) (h2 : st.b_pos ≤ st.p_pos)
    (h3 : st.p_pos ≤ st.«end») (h4 : st.«end» < W) :
    st.used_bytes + st.available_bytes = st.total_bytes := by
  have hsub : wsub st.«end» st.p_pos = st.«end» - st.p_pos := wsub_eq h3 h4
  have hadd : wadd (st.b_pos - st.bytes_start) (st.«end» - st.p_pos) =
      (st.b_pos - st.bytes_start) + (st.«end» - st.p_pos) :=
    wadd_eq (by omega)
  simp only [EarlyAllocator.used_bytes, EarlyAllocator.available_bytes,
    EarlyAllocator.total_bytes, hsub, hadd]
  split_ifs <;> omega

/-- Witness for C9: the state after one 16-byte allocation and one page
allocation on `init(0x1000, 0x1000)` satisfies the identity. -/
theorem C9_witness :
    (((EarlyAllocator.init 0x1000 0x1000).alloc 16 8).2.used_bytes +
      ((EarlyAllocator.init 0x1000 0x1000).alloc 16 8).2.available_bytes) =
      ((EarlyAllocator.init 0x1000 0x1000).alloc 16 8).2.total_bytes :=
  C9_accounting_identity (((EarlyAllocator.init 0x1000 0x1000).alloc 16 8).2)
    (by decide) (by decide) (by decide) (by decide) (by decide)

/-- Claim C10: a zero-page request is *not* a no-op in general.  For
`align_pow2 = 2 ^ k` (`k <= 63`), `alloc_pages(0, align_pow2)` computes
`aligned_pos = p_pos` rounded down to a multiple of `align_pow2`; if
`aligned_pos >= b_pos` it succeeds, commits `p_pos = aligned_pos` and
returns it (else `NoMemory`, unchanged).  Concretely, with `SIZE = 1` on
`init(0x1000, 0xFFF)` (`p_pos = 0x1FFF` odd), `alloc_pages(0, 2)` strictly
decreases `p_pos` and raises `used_pages()` from 0 to 1. -/
theorem C10_zero_page_request :
    (∀ (SIZE : Nat) (st : EarlyAllocator) (a k : Nat), k ≤ 63 → a = 2 ^ k →
      st.p_pos < W →
      ((st.b_pos ≤ alignDownM st.p_pos a →
          st.alloc_pages SIZE 0 a =
            (.ok (alignDownM st.p_pos a),
             { st with p_pos := alignDownM st.p_pos a }))
        ∧ (alignDownM st.p_pos a < st.b_pos →
            st.alloc_pages SIZE 0 a = (.err .NoMemory, st))))
    ∧ (((EarlyAllocator.init 0x1000 0xFFF).alloc_pages 1 0 2).2.p_pos <
        (EarlyAllocator.init 0x1000 0xFFF).p_pos
      ∧ (EarlyAllocator.init 0x1000 0xFFF).used_pages 1 = 0
      ∧ ((EarlyAllocator.init 0x1000 0xFFF).alloc_pages 1 0 2).2.used_pages 1
          = 1) := by
  constructor
  · intro SIZE st a k hk ha hp
    have h := alloc_pages_eq st SIZE 0 a k hk ha hp (by omega)
    rw [Nat.zero_mul, Nat.sub_zero] at h
    rw [h]
    constructor
    · intro hge
      rw [if_neg (by omega)]
    · intro hlt
      rw [if_pos hlt]
  · decide

/-- Witness for C10: applying the general part at the concrete unaligned
state shows the zero-page call commits the rounded-down `p_pos`. -/
theorem C10_witness :
    (EarlyAllocator.init 0x1000 0xFFF).alloc_pages 1 0 2 =
      (.ok 0x1FFE,
       { start := 0x1000, «end» := 0x1FFF, b_pos := 0x1000, p_pos := 0x1FFE,
         count := 0, bytes_start := 0x1000 }) := by
  have h := C10_zero_page_request.1 1 (EarlyAllocator.init 0x1000 0xFFF) 2 1
    (by omega) rfl (by decide)
  exact h.1 (by decide)

end BumpAllocator
